import Mathlib

/-!
Verification of `src/debug_regex.py`, a diagnostic script that applies two
Python regular expressions to two fixed literal strings and prints the result.

The embedding models the relevant fragment of the Python `re` engine: a
backtracking matcher with leftmost-first search, greedy quantifiers that only
quantify single character classes (the only quantifiers occurring in the two
patterns), left-first alternation, and capturing groups returning the last
captured text.  Strings are `List Char`; the classes `.`, `[^)]` and `\s`
follow CPython exactly; the class `\w`, whose full Unicode table is too large
to transcribe, is a parameter of the Pattern A embedding: universal claims
about Pattern A are proved for every choice of that class, hence for the one
CPython uses, and concrete claims instantiate it with its ASCII part, which
agrees with CPython on the fixed ASCII inputs of the script.
-/

namespace DebugRegex

/-- Capture list: pairs of group index and captured text, in capture order. -/
abbrev Caps := List (Nat × List Char)

/-- Regular expression fragment used by the script: literal characters,
character classes, greedy star over a character class, sequencing,
alternation and capturing groups. -/
inductive Regex where
  | eps : Regex
  | ch (c : Char) : Regex
  | cls (p : Char → Bool) : Regex
  | starCls (p : Char → Bool) : Regex
  | seq (a b : Regex) : Regex
  | alt (a b : Regex) : Regex
  | group (i : Nat) (r : Regex) : Regex

/-- Literal string as a regex. -/
def strLit : List Char → Regex
  | [] => .eps
  | c :: cs => .seq (.ch c) (strLit cs)

/-- `r+` for a character class, as in the patterns, is `r` followed by `r*`. -/
def plusCls (p : Char → Bool) : Regex := .seq (.cls p) (.starCls p)

/-- All ways a greedy class star can leave a rest, longest consumed first
(the backtracking order of a greedy quantifier). -/
def starRests (p : Char → Bool) : List Char → List (List Char)
  | [] => [[]]
  | c :: cs => if p c then starRests p cs ++ [c :: cs] else [c :: cs]

/-- First success of `f` over a list, in order: the backtracking search. -/
def firstSome (f : α → Option β) : List α → Option β
  | [] => none
  | x :: xs =>
    match f x with
    | some b => some b
    | none => firstSome f xs

/-- CPS backtracking matcher.  `mrun r s g k` tries to match `r` against a
prefix of `s` with accumulated captures `g`; on each candidate split it calls
the continuation `k` with the rest of the input and the captures, and yields
the first overall success.  This realises the priority order of the Python
engine: greedy quantifiers longest-first, alternation left-first. -/
def mrun : Regex → List Char → Caps →
    (List Char → Caps → Option (List Char × Caps)) → Option (List Char × Caps)
  | .eps, s, g, k => k s g
  | .ch c, s, g, k =>
    match s with
    | [] => none
    | x :: xs => if x = c then k xs g else none
  | .cls p, s, g, k =>
    match s with
    | [] => none
    | x :: xs => if p x then k xs g else none
  | .starCls p, s, g, k => firstSome (fun t => k t g) (starRests p s)
  | .seq a b, s, g, k => mrun a s g (fun t h => mrun b t h k)
  | .alt a b, s, g, k =>
    match mrun a s g k with
    | some v => some v
    | none => mrun b s g k
  | .group i r, s, g, k =>
    mrun r s g (fun t h => k t (h ++ [(i, s.take (s.length - t.length))]))

/-- Result of a successful match: the matched text (group 0) and captures. -/
structure MatchRes where
  fullMatch : List Char
  groups : Caps
deriving DecidableEq, Repr

/-- `re.match`: anchored at the start, matching a prefix of the input. -/
def reMatch (r : Regex) (s : List Char) : Option MatchRes :=
  match mrun r s [] (fun t g => some (t, g)) with
  | none => none
  | some (t, g) => some ⟨s.take (s.length - t.length), g⟩

/-- `re.search` tried from each start position, leftmost first. -/
def searchFrom (r : Regex) : List Char → Option MatchRes
  | [] => reMatch r []
  | c :: cs =>
    match reMatch r (c :: cs) with
    | some m => some m
    | none => searchFrom r cs

/-- `re.search`: first match anywhere in the input. -/
def reSearch (r : Regex) (s : List Char) : Option MatchRes := searchFrom r s

/-- `match.group(i)`: the last capture recorded for group `i`, if any. -/
def groupVal (m : MatchRes) (i : Nat) : Option (List Char) :=
  (m.groups.reverse.find? (fun x => x.1 == i)).map (fun x => x.2)

/-- CPython `\s` for str patterns, exactly: the 29 Unicode scalar values
accepted by the engine category for whitespace (ASCII whitespace, the
separators U+001C to U+001F, next line, no-break space, Ogham space mark,
the spaces U+2000 to U+200A, line and paragraph separator, narrow no-break
space, medium mathematical space and ideographic space). -/
def isSpacePy (c : Char) : Bool :=
  c = ' ' || c = '\t' || c = '\n' || c = '\x0b' || c = '\x0c' || c = '\r' ||
  c = '\x1c' || c = '\x1d' || c = '\x1e' || c = '\x1f' ||
  c = '\x85' || c = '\xa0' || c = '\u1680' ||
  c = '\u2000' || c = '\u2001' || c = '\u2002' || c = '\u2003' ||
  c = '\u2004' || c = '\u2005' || c = '\u2006' || c = '\u2007' ||
  c = '\u2008' || c = '\u2009' || c = '\u200A' ||
  c = '\u2028' || c = '\u2029' || c = '\u202F' || c = '\u205F' ||
  c = '\u3000'

/-- The ASCII part of CPython `\w`: letters, digits and underscore.  The
full class also holds the non-ASCII Unicode word characters, a table too
large to transcribe; the universal theorems about Pattern A therefore
quantify over an arbitrary word class `wd` (so they hold in particular for
the full table of CPython), and this ASCII part instantiates them on the
fixed ASCII inputs of the script, where the two classes agree. -/
def isWordPy (c : Char) : Bool := c.isAlphanum || c = '_'

/-- CPython `.` without DOTALL: any character except newline. -/
def isDotPy (c : Char) : Bool := c ≠ '\n'

/-- The class `[^)]`: any character except a closing parenthesis. -/
def notRParen (c : Char) : Bool := c ≠ ')'

/-- `text` from the script:
`for (var char in 'hello'.split('')) {}` (braces escaped). -/
def text : List Char :=
  "for (var char in \x27hello\x27.split(\x27\x27)) \x7b\x7d".data

/-- Pattern A from the script, the regex
`for\s*\(\s*(var|final)\s+(\w+)\s+in\s+([^)]+)\)` transliterated
constructor by constructor, with the `\w` class left as the parameter `wd`
(see `isWordPy` for why). -/
def patternWith (wd : Char → Bool) : Regex :=
  .seq (strLit "for".data)
    (.seq (.starCls isSpacePy)
      (.seq (.ch '(')
        (.seq (.starCls isSpacePy)
          (.seq (.group 1 (.alt (strLit "var".data) (strLit "final".data)))
            (.seq (plusCls isSpacePy)
              (.seq (.group 2 (plusCls wd))
                (.seq (plusCls isSpacePy)
                  (.seq (strLit "in".data)
                    (.seq (plusCls isSpacePy)
                      (.seq (.group 3 (plusCls notRParen))
                        (.ch ')')))))))))))

/-- Pattern A with the ASCII part of `\w`, used on the fixed ASCII inputs. -/
def pattern : Regex := patternWith isWordPy

/-- `iterable_text` from the script: `'hello'.split('')`. -/
def iterable_text : List Char := "\x27hello\x27.split(\x27\x27)".data

/-- Pattern B from the script, the regex `.+\.split\(.*\)` transliterated. -/
def split_pattern : Regex :=
  .seq (plusCls isDotPy)
    (.seq (strLit ".split(".data)
      (.seq (.starCls isDotPy) (.ch ')')))

/-- Wrap a value in single quotes, as the f-strings of the script do. -/
def fmtQuoted (s : List Char) : String := "\x27" ++ String.mk s ++ "\x27"

/-- Output lines of the first block of the script (operation A), for an
arbitrary subject string. -/
def opALines (t : List Char) : List String :=
  match reSearch pattern t with
  | some m =>
    ["Full match: " ++ fmtQuoted m.fullMatch,
     "Keyword: " ++ fmtQuoted ((groupVal m 1).getD []),
     "Variable: " ++ fmtQuoted ((groupVal m 2).getD []),
     "Iterable: " ++ fmtQuoted ((groupVal m 3).getD [])]
  | none => ["No match found"]

/-- Output lines of the second block of the script (operation B), for an
arbitrary subject string. -/
def opBLines (t : List Char) : List String :=
  match reMatch split_pattern t with
  | some _ =>
    ["Split pattern matches: " ++ fmtQuoted t ++ " -> should return String"]
  | none => ["Split pattern doesn\x27t match: " ++ fmtQuoted t]

/-- The whole script, parameterised by the two subject strings. -/
def scriptLinesWith (tA tB : List Char) : List String :=
  opALines tA ++ opBLines tB

/-- The script as written: both subjects are the fixed literals. -/
def scriptLines : List String := scriptLinesWith text iterable_text

/-- The script run as a process: its output lines and its exit status.
The script has no failing path, so the status is the constant 0. -/
def scriptRun (tA tB : List Char) : List String × Nat :=
  (scriptLinesWith tA tB, 0)

/-- The string contains the token `in` preceded by an identifier (one or
more characters of the word class `wd`) and whitespace (one or more `\s`
characters). -/
def HasIdSpIn (wd : Char → Bool) (s : List Char) : Prop :=
  ∃ u idv sp v, s = u ++ idv ++ sp ++ 'i' :: 'n' :: v ∧
    idv ≠ [] ∧ (∀ c ∈ idv, wd c = true) ∧
    sp ≠ [] ∧ (∀ c ∈ sp, isSpacePy c = true)

/-! ### Decomposition lemmas for the matcher

Each lemma turns a success of `mrun` on one regex constructor into the
structural split of the input it implies, in the success-implies direction
needed by the negative-case and invariant claims. -/

theorem firstSome_some {f : α → Option β} {l : List α} {b : β}
    (h : firstSome f l = some b) : ∃ x ∈ l, f x = some b := by
  induction l with
  | nil => simp [firstSome] at h
  | cons x xs ih =>
    simp only [firstSome] at h
    split at h
    · next heq => exact ⟨x, by simp, heq.trans h⟩
    · obtain ⟨y, hy, hf⟩ := ih h
      exact ⟨y, by simp [hy], hf⟩

theorem mem_starRests {p : Char → Bool} {s t : List Char}
    (h : t ∈ starRests p s) : ∃ a, s = a ++ t ∧ ∀ c ∈ a, p c = true := by
  induction s with
  | nil =>
    simp [starRests] at h
    exact ⟨[], by simp [h], by simp⟩
  | cons c cs ih =>
    simp only [starRests] at h
    by_cases hc : p c
    · rw [if_pos hc] at h
      rcases List.mem_append.mp h with h | h
      · obtain ⟨a, rfl, hp⟩ := ih h
        refine ⟨c :: a, rfl, ?_⟩
        intro d hd
        rcases List.mem_cons.mp hd with rfl | hd
        · exact hc
        · exact hp d hd
      · simp at h
        subst h
        exact ⟨[], rfl, by simp⟩
    · rw [if_neg hc] at h
      simp at h
      subst h
      exact ⟨[], rfl, by simp⟩

theorem take_len_append (a t : List Char) :
    (a ++ t).take ((a ++ t).length - t.length) = a := by
  rw [List.length_append, Nat.add_sub_cancel]
  exact List.take_left a t

theorem take_sub_length {s a t : List Char} (hs : s = a ++ t) :
    s.take (s.length - t.length) = a := by
  subst hs
  exact take_len_append a t

theorem mrun_seq (a b : Regex) (s : List Char) (g : Caps) (k) :
    mrun (.seq a b) s g k = mrun a s g (fun t h => mrun b t h k) := rfl

theorem mrun_group_eq (i : Nat) (r : Regex) (s : List Char) (g : Caps) (k) :
    mrun (.group i r) s g k =
      mrun r s g (fun t h => k t (h ++ [(i, s.take (s.length - t.length))])) := rfl

theorem mrun_ch {c : Char} {s : List Char} {g : Caps} {k} {v}
    (h : mrun (.ch c) s g k = some v) : ∃ t, s = c :: t ∧ k t g = some v := by
  cases s with
  | nil => simp [mrun] at h
  | cons x xs =>
    simp only [mrun] at h
    split at h
    · next hx => exact ⟨xs, by rw [hx], h⟩
    · simp at h

theorem mrun_cls {p : Char → Bool} {s : List Char} {g : Caps} {k} {v}
    (h : mrun (.cls p) s g k = some v) :
    ∃ x t, s = x :: t ∧ p x = true ∧ k t g = some v := by
  cases s with
  | nil => simp [mrun] at h
  | cons x xs =>
    simp only [mrun] at h
    split at h
    · next hx => exact ⟨x, xs, rfl, hx, h⟩
    · simp at h

theorem mrun_starCls {p : Char → Bool} {s : List Char} {g : Caps} {k} {v}
    (h : mrun (.starCls p) s g k = some v) :
    ∃ a t, s = a ++ t ∧ (∀ c ∈ a, p c = true) ∧ k t g = some v := by
  simp only [mrun] at h
  obtain ⟨t, ht, hk⟩ := firstSome_some h
  obtain ⟨a, rfl, hp⟩ := mem_starRests ht
  exact ⟨a, t, rfl, hp, hk⟩

theorem mrun_alt {a b : Regex} {s : List Char} {g : Caps} {k} {v}
    (h : mrun (.alt a b) s g k = some v) :
    mrun a s g k = some v ∨ mrun b s g k = some v := by
  simp only [mrun] at h
  split at h
  · next heq => exact Or.inl (heq.trans h)
  · exact Or.inr h

theorem mrun_strLit {l s : List Char} {g : Caps} {k} {v}
    (h : mrun (strLit l) s g k = some v) :
    ∃ t, s = l ++ t ∧ k t g = some v := by
  induction l generalizing s with
  | nil => exact ⟨s, rfl, h⟩
  | cons c cs ih =>
    rw [strLit, mrun_seq] at h
    obtain ⟨t1, rfl, h1⟩ := mrun_ch h
    obtain ⟨t, rfl, hk⟩ := ih h1
    exact ⟨t, rfl, hk⟩

theorem mrun_plusCls {p : Char → Bool} {s : List Char} {g : Caps} {k} {v}
    (h : mrun (plusCls p) s g k = some v) :
    ∃ a t, s = a ++ t ∧ a ≠ [] ∧ (∀ c ∈ a, p c = true) ∧ k t g = some v := by
  unfold plusCls at h
  rw [mrun_seq] at h
  obtain ⟨x, t1, rfl, hx, h1⟩ := mrun_cls h
  obtain ⟨a, t, rfl, hp, hk⟩ := mrun_starCls h1
  refine ⟨x :: a, t, rfl, by simp, ?_, hk⟩
  intro d hd
  rcases List.mem_cons.mp hd with rfl | hd
  · exact hx
  · exact hp d hd

theorem mrun_seq_strLit {l : List Char} {r : Regex} {s : List Char} {g : Caps} {k} {v}
    (h : mrun (.seq (strLit l) r) s g k = some v) :
    ∃ t, s = l ++ t ∧ mrun r t g k = some v := by
  rw [mrun_seq] at h
  obtain ⟨t, rfl, hk⟩ := mrun_strLit h
  exact ⟨t, rfl, hk⟩

theorem mrun_seq_ch {c : Char} {r : Regex} {s : List Char} {g : Caps} {k} {v}
    (h : mrun (.seq (.ch c) r) s g k = some v) :
    ∃ t, s = c :: t ∧ mrun r t g k = some v := by
  rw [mrun_seq] at h
  obtain ⟨t, rfl, hk⟩ := mrun_ch h
  exact ⟨t, rfl, hk⟩

theorem mrun_seq_starCls {p : Char → Bool} {r : Regex} {s : List Char} {g : Caps} {k} {v}
    (h : mrun (.seq (.starCls p) r) s g k = some v) :
    ∃ a t, s = a ++ t ∧ (∀ c ∈ a, p c = true) ∧ mrun r t g k = some v := by
  rw [mrun_seq] at h
  obtain ⟨a, t, rfl, hp, hk⟩ := mrun_starCls h
  exact ⟨a, t, rfl, hp, hk⟩

theorem mrun_seq_plusCls {p : Char → Bool} {r : Regex} {s : List Char} {g : Caps} {k} {v}
    (h : mrun (.seq (plusCls p) r) s g k = some v) :
    ∃ a t, s = a ++ t ∧ a ≠ [] ∧ (∀ c ∈ a, p c = true) ∧ mrun r t g k = some v := by
  rw [mrun_seq] at h
  obtain ⟨a, t, rfl, hne, hp, hk⟩ := mrun_plusCls h
  exact ⟨a, t, rfl, hne, hp, hk⟩

theorem mrun_seq_group_plusCls {i : Nat} {p : Char → Bool} {r : Regex}
    {s : List Char} {g : Caps} {k} {v}
    (h : mrun (.seq (.group i (plusCls p)) r) s g k = some v) :
    ∃ a t, s = a ++ t ∧ a ≠ [] ∧ (∀ c ∈ a, p c = true) ∧
      mrun r t (g ++ [(i, a)]) k = some v := by
  rw [mrun_seq, mrun_group_eq] at h
  obtain ⟨a, t, rfl, hne, hp, hk⟩ := mrun_plusCls h
  refine ⟨a, t, rfl, hne, hp, ?_⟩
  simp only [take_len_append] at hk
  exact hk

theorem mrun_seq_group_altLit {i : Nat} {w1 w2 : List Char} {r : Regex}
    {s : List Char} {g : Caps} {k} {v}
    (h : mrun (.seq (.group i (.alt (strLit w1) (strLit w2))) r) s g k = some v) :
    ∃ w t, (w = w1 ∨ w = w2) ∧ s = w ++ t ∧
      mrun r t (g ++ [(i, w)]) k = some v := by
  rw [mrun_seq, mrun_group_eq] at h
  rcases mrun_alt h with h | h
  · obtain ⟨t, rfl, hk⟩ := mrun_strLit h
    refine ⟨w1, t, Or.inl rfl, rfl, ?_⟩
    simp only [take_len_append] at hk
    exact hk
  · obtain ⟨t, rfl, hk⟩ := mrun_strLit h
    refine ⟨w2, t, Or.inr rfl, rfl, ?_⟩
    simp only [take_len_append] at hk
    exact hk

theorem reMatch_some {r : Regex} {s : List Char} {m : MatchRes}
    (h : reMatch r s = some m) :
    ∃ t g, mrun r s [] (fun t g => some (t, g)) = some (t, g) ∧
      m.fullMatch = s.take (s.length - t.length) ∧ m.groups = g := by
  unfold reMatch at h
  split at h
  · simp at h
  · next t g heq =>
    obtain rfl := Option.some.inj h
    exact ⟨t, g, heq, rfl, rfl⟩

theorem searchFrom_some {r : Regex} {s : List Char} {m : MatchRes}
    (h : searchFrom r s = some m) :
    ∃ u t, s = u ++ t ∧ reMatch r t = some m := by
  induction s with
  | nil => exact ⟨[], [], rfl, h⟩
  | cons c cs ih =>
    simp only [searchFrom] at h
    split at h
    · next heq => exact ⟨[], c :: cs, rfl, heq.trans h⟩
    · obtain ⟨u, t, rfl, hm⟩ := ih h
      exact ⟨c :: u, t, rfl, hm⟩

/-- A successful anchored match of Pattern B splits the input into a nonempty
receiver, the literal `.split(`, an argument part, the matched closing
parenthesis and an unconsumed rest; the matched text is everything up to and
including that parenthesis. -/
theorem split_pattern_decomp {s : List Char} {m : MatchRes}
    (h : reMatch split_pattern s = some m) :
    ∃ a b rest,
      s = a ++ (".split(".data ++ (b ++ (')' :: rest))) ∧ a ≠ [] ∧
      (∀ c ∈ a, isDotPy c = true) ∧ (∀ c ∈ b, isDotPy c = true) ∧
      m.fullMatch = a ++ (".split(".data ++ (b ++ [')'])) := by
  obtain ⟨t, g, hm0, hfull, hgroups⟩ := reMatch_some h
  unfold split_pattern at hm0
  obtain ⟨a, t1, rfl, hane, hap, hm1⟩ := mrun_seq_plusCls hm0
  obtain ⟨t2, rfl, hm2⟩ := mrun_seq_strLit hm1
  obtain ⟨b, t3, rfl, hbp, hm3⟩ := mrun_seq_starCls hm2
  obtain ⟨t4, rfl, hk⟩ := mrun_ch hm3
  obtain ⟨rfl, rfl⟩ := Prod.ext_iff.mp (Option.some.inj hk)
  refine ⟨a, b, t4, rfl, hane, hap, hbp, ?_⟩
  rw [hfull, take_sub_length
    (show a ++ (".split(".data ++ (b ++ (')' :: t4))) =
      (a ++ (".split(".data ++ (b ++ [')']))) ++ t4 by simp)]

/-- A successful anchored match of Pattern A splits the input into the literal
`for`, optional whitespace, an opening parenthesis, optional whitespace, the
keyword `var` or `final`, mandatory whitespace, a nonempty identifier,
mandatory whitespace, the literal `in`, mandatory whitespace, a nonempty
iterable free of closing parentheses, the matched closing parenthesis and an
unconsumed rest; the captures are exactly groups 1 to 3.  The lemma holds
for every word class `wd`, hence for the full one of CPython. -/
theorem patternWith_decomp {wd : Char → Bool} {s : List Char} {m : MatchRes}
    (h : reMatch (patternWith wd) s = some m) :
    ∃ w1 w2 kw sp1 idv sp2 sp3 iter rest,
      s = "for".data ++ (w1 ++ ('(' :: (w2 ++ (kw ++ (sp1 ++ (idv ++ (sp2 ++
        ("in".data ++ (sp3 ++ (iter ++ (')' :: rest))))))))))) ∧
      (kw = "var".data ∨ kw = "final".data) ∧
      (∀ c ∈ w1, isSpacePy c = true) ∧ (∀ c ∈ w2, isSpacePy c = true) ∧
      sp1 ≠ [] ∧ (∀ c ∈ sp1, isSpacePy c = true) ∧
      idv ≠ [] ∧ (∀ c ∈ idv, wd c = true) ∧
      sp2 ≠ [] ∧ (∀ c ∈ sp2, isSpacePy c = true) ∧
      sp3 ≠ [] ∧ (∀ c ∈ sp3, isSpacePy c = true) ∧
      iter ≠ [] ∧ (∀ c ∈ iter, notRParen c = true) ∧
      m.fullMatch = "for".data ++ (w1 ++ ('(' :: (w2 ++ (kw ++ (sp1 ++ (idv ++
        (sp2 ++ ("in".data ++ (sp3 ++ (iter ++ [')'])))))))))) ∧
      m.groups = [(1, kw), (2, idv), (3, iter)] := by
  obtain ⟨t, g, hm0, hfull, hgroups⟩ := reMatch_some h
  unfold patternWith at hm0
  obtain ⟨t1, rfl, hm1⟩ := mrun_seq_strLit hm0
  obtain ⟨w1, t2, rfl, hw1, hm2⟩ := mrun_seq_starCls hm1
  obtain ⟨t3, rfl, hm3⟩ := mrun_seq_ch hm2
  obtain ⟨w2, t4, rfl, hw2, hm4⟩ := mrun_seq_starCls hm3
  obtain ⟨kw, t5, hkw, rfl, hm5⟩ := mrun_seq_group_altLit hm4
  obtain ⟨sp1, t6, rfl, hsp1ne, hsp1, hm6⟩ := mrun_seq_plusCls hm5
  obtain ⟨idv, t7, rfl, hidvne, hidv, hm7⟩ := mrun_seq_group_plusCls hm6
  obtain ⟨sp2, t8, rfl, hsp2ne, hsp2, hm8⟩ := mrun_seq_plusCls hm7
  obtain ⟨t9, rfl, hm9⟩ := mrun_seq_strLit hm8
  obtain ⟨sp3, t10, rfl, hsp3ne, hsp3, hm10⟩ := mrun_seq_plusCls hm9
  obtain ⟨iter, t11, rfl, hitne, hit, hm11⟩ := mrun_seq_group_plusCls hm10
  obtain ⟨rest, rfl, hk⟩ := mrun_ch hm11
  obtain ⟨rfl, rfl⟩ := Prod.ext_iff.mp (Option.some.inj hk)
  refine ⟨w1, w2, kw, sp1, idv, sp2, sp3, iter, rest, rfl, hkw,
    hw1, hw2, hsp1ne, hsp1, hidvne, hidv, hsp2ne, hsp2, hsp3ne, hsp3,
    hitne, hit, ?_, by simpa using hgroups⟩
  rw [hfull, take_sub_length
    (show "for".data ++ (w1 ++ ('(' :: (w2 ++ (kw ++ (sp1 ++ (idv ++ (sp2 ++
        ("in".data ++ (sp3 ++ (iter ++ (')' :: rest))))))))))) =
      ("for".data ++ (w1 ++ ('(' :: (w2 ++ (kw ++ (sp1 ++ (idv ++ (sp2 ++
        ("in".data ++ (sp3 ++ (iter ++ [')']))))))))))) ++ rest by simp)]

/-- Characters all drawn from a class that excludes the closing parenthesis
never count a closing parenthesis. -/
theorem count_rparen_zero {l : List Char} {p : Char → Bool}
    (hl : ∀ c ∈ l, p c = true) (hp : p ')' = false) : l.count ')' = 0 := by
  refine List.count_eq_zero.mpr (fun hmem => ?_)
  rw [hl ')' hmem] at hp
  exact Bool.noConfusion hp

/-! ### Claims -/

/-- Claim C1, as stated by the spec, is false: applying Pattern A to Input
String A does not produce full match `for (var char in 'hello'.split(''))`
and iterable `'hello'.split('')`, because the class `[^)]` cannot cross the
first closing parenthesis. -/
theorem C1_claimed_pieces_false :
    ¬ ((reSearch pattern text).map (fun m => (m.fullMatch, (groupVal m 1).getD [],
        (groupVal m 2).getD [], (groupVal m 3).getD [])) =
      some ("for (var char in \x27hello\x27.split(\x27\x27))".data, "var".data,
        "char".data, "\x27hello\x27.split(\x27\x27)".data)) := by decide

/-- Claim C1, amended: applying Pattern A via an unanchored search to Input
String A yields a match whose four captured pieces are exactly: full match
`for (var char in 'hello'.split('')`, keyword `var`, variable `char`,
iterable `'hello'.split(''`. -/
theorem C1_actual_pieces :
    (reSearch pattern text).map (fun m => (m.fullMatch, (groupVal m 1).getD [],
        (groupVal m 2).getD [], (groupVal m 3).getD [])) =
      some ("for (var char in \x27hello\x27.split(\x27\x27)".data, "var".data,
        "char".data, "\x27hello\x27.split(\x27\x27".data) := by decide

/-- Claim C2, as stated by the spec, is false: the five output lines of
section 6 are not the ones the script produces, because the first and fourth
lines carry the shorter captures actually produced by Pattern A. -/
theorem C2_claimed_output_false :
    scriptLines ≠
      ["Full match: \x27for (var char in \x27hello\x27.split(\x27\x27))\x27",
       "Keyword: \x27var\x27",
       "Variable: \x27char\x27",
       "Iterable: \x27\x27hello\x27.split(\x27\x27)\x27",
       "Split pattern matches: \x27\x27hello\x27.split(\x27\x27)\x27 -> should return String"] := by
  decide

/-- Claim C2, amended: running the script on its two fixed literal inputs
produces exactly these five lines, with the full match ending at the first
closing parenthesis and the iterable value lacking the final `)`. -/
theorem C2_actual_output :
    scriptLines =
      ["Full match: \x27for (var char in \x27hello\x27.split(\x27\x27)\x27",
       "Keyword: \x27var\x27",
       "Variable: \x27char\x27",
       "Iterable: \x27\x27hello\x27.split(\x27\x27\x27",
       "Split pattern matches: \x27\x27hello\x27.split(\x27\x27)\x27 -> should return String"] := by
  decide

/-- Claim C3: applying Pattern B anchored at position zero to Input String B
`'hello'.split('')` succeeds. -/
theorem C3_split_matches :
    (reMatch split_pattern iterable_text).isSome = true := by decide

/-- Claim C4: every candidate input string that does not contain the literal
substring `.split(` is rejected by Pattern B anchored at position zero. -/
theorem C4_no_split_no_match (s : List Char)
    (h : ¬ (".split(".data <:+: s)) : reMatch split_pattern s = none := by
  cases hEq : reMatch split_pattern s with
  | none => rfl
  | some m =>
    exfalso
    obtain ⟨a, b, rest, hs, hane, hap, hbp, hfull⟩ := split_pattern_decomp hEq
    exact h ⟨a, b ++ (')' :: rest), by rw [hs]; simp⟩

/-- Claim C4, witness: `hello` lacks `.split(` and Pattern B rejects it. -/
theorem C4_witness :
    ¬ (".split(".data <:+: "hello".data) ∧
      reMatch split_pattern "hello".data = none :=
  ⟨by decide, C4_no_split_no_match _ (by decide)⟩

/-- Claim C5: every candidate input string containing no occurrence of the
token `in` preceded by an identifier and whitespace is rejected by Pattern A
everywhere, so the unanchored search fails.  The whitespace class is the
exact `\s` of CPython; the word class is an arbitrary `wd`, so the theorem
holds in particular for the full `\w` table of CPython. -/
theorem C5_no_id_sp_in_no_match (wd : Char → Bool) (s : List Char)
    (h : ¬ HasIdSpIn wd s) : reSearch (patternWith wd) s = none := by
  cases hEq : reSearch (patternWith wd) s with
  | none => rfl
  | some m =>
    exfalso
    obtain ⟨u, t, rfl, hm⟩ := searchFrom_some hEq
    obtain ⟨w1, w2, kw, sp1, idv, sp2, sp3, iter, rest, hs, hkw, hw1, hw2,
      hsp1ne, hsp1, hidvne, hidv, hsp2ne, hsp2, hsp3ne, hsp3, hitne, hit,
      hfull, hgroups⟩ := patternWith_decomp hm
    refine h ⟨u ++ "for".data ++ w1 ++ ('(' :: w2) ++ kw ++ sp1, idv, sp2,
      sp3 ++ iter ++ (')' :: rest), ?_, hidvne, hidv, hsp2ne, hsp2⟩
    have hin : "in".data = ['i', 'n'] := rfl
    rw [hs, hin]
    simp

/-- Claim C5, witness: the empty string has no such occurrence and the
search fails on it, instantiating the word class with the ASCII part. -/
theorem C5_witness :
    ¬ HasIdSpIn isWordPy [] ∧ reSearch (patternWith isWordPy) [] = none := by
  have h : ¬ HasIdSpIn isWordPy [] := by simp [HasIdSpIn]
  exact ⟨h, C5_no_id_sp_in_no_match isWordPy [] h⟩

/-- Claim C6: Pattern B anchored at position zero also accepts a string with
extra trailing content after a closing parenthesis, here `a.split()tail`:
the match stops at the mid-string closing parenthesis and the trailing
`tail` is simply left unconsumed, a prefix match rather than a full-string
match. -/
theorem C6_trailing_content_match :
    reMatch split_pattern "a.split()tail".data =
        some ⟨"a.split()".data, []⟩ ∧
      "a.split()tail".data = "a.split()".data ++ "tail".data ∧
      "tail".data ≠ [] := by
  refine ⟨by decide, by decide, by decide⟩

/-- Claim C7: if Pattern A fails on the first subject the script prints the
single line `No match found` in place of the four capture lines, and if
Pattern B fails on the second subject it prints the `doesn't match` line in
place of the match line. -/
theorem C7_failure_messages (tA tB : List Char) :
    (reSearch pattern tA = none →
      scriptLinesWith tA tB = "No match found" :: opBLines tB) ∧
    (reMatch split_pattern tB = none →
      scriptLinesWith tA tB =
        opALines tA ++ ["Split pattern doesn\x27t match: " ++ fmtQuoted tB]) := by
  constructor
  · intro h
    simp [scriptLinesWith, opALines, h]
  · intro h
    simp [scriptLinesWith, opBLines, h]

/-- Claim C7, witness: on empty subjects both patterns fail and both
replacement lines appear. -/
theorem C7_witness :
    scriptLinesWith [] [] = "No match found" :: opBLines [] ∧
    scriptLinesWith [] [] =
      opALines [] ++ ["Split pattern doesn\x27t match: " ++ fmtQuoted []] :=
  ⟨(C7_failure_messages [] []).1 (by decide),
   (C7_failure_messages [] []).2 (by decide)⟩

/-- Claim C8: the script is deterministic — two runs on unchanged inputs
produce identical output — and it always terminates with exit status 0. -/
theorem C8_deterministic_success (tA tB : List Char) (o₁ o₂ : List String × Nat)
    (h₁ : scriptRun tA tB = o₁) (h₂ : scriptRun tA tB = o₂) :
    o₁ = o₂ ∧ o₁.2 = 0 := by
  subst h₁
  subst h₂
  exact ⟨rfl, rfl⟩

/-- Claim C8, witness: two runs on the fixed inputs agree and exit with 0. -/
theorem C8_witness :
    ((scriptLines, 0) : List String × Nat) = (scriptLines, 0) ∧
      ((scriptLines, 0) : List String × Nat).2 = 0 :=
  C8_deterministic_success text iterable_text (scriptLines, 0) (scriptLines, 0)
    rfl rfl

/-- Claim C9: whenever Pattern A matches, the captured iterable (group 3)
contains no closing parenthesis and the full matched substring contains
exactly one closing parenthesis, the one that terminates the match.  The
word class is an arbitrary `wd` not containing the closing parenthesis — a
fact of the `\w` of CPython, where that character is punctuation — so the
theorem holds in particular for the full table of CPython. -/
theorem C9_iterable_invariant (wd : Char → Bool) (hwd : wd ')' = false)
    (s : List Char) (m : MatchRes)
    (h : reSearch (patternWith wd) s = some m) :
    (∀ c ∈ (groupVal m 3).getD [], c ≠ ')') ∧ m.fullMatch.count ')' = 1 := by
  obtain ⟨u, t, rfl, hm⟩ := searchFrom_some h
  obtain ⟨w1, w2, kw, sp1, idv, sp2, sp3, iter, rest, hs, hkw, hw1, hw2,
    hsp1ne, hsp1, hidvne, hidv, hsp2ne, hsp2, hsp3ne, hsp3, hitne, hit,
    hfull, hgroups⟩ := patternWith_decomp hm
  have hg3 : groupVal m 3 = some iter := by
    simp [groupVal, hgroups]
  constructor
  · intro c hc
    rw [hg3] at hc
    simp at hc
    have := hit c hc
    simp only [notRParen] at this
    simpa using this
  · have hforc : ("for".data).count ')' = 0 := by decide
    have hinc : ("in".data).count ')' = 0 := by decide
    have hkwc : kw.count ')' = 0 := by
      rcases hkw with rfl | rfl <;> decide
    have hw1c := count_rparen_zero hw1 (by decide)
    have hw2c := count_rparen_zero hw2 (by decide)
    have hsp1c := count_rparen_zero hsp1 (by decide)
    have hsp2c := count_rparen_zero hsp2 (by decide)
    have hsp3c := count_rparen_zero hsp3 (by decide)
    have hidvc := count_rparen_zero hidv hwd
    have hitc := count_rparen_zero hit (by decide)
    rw [hfull]
    simp [List.count_append, List.count_cons, hforc, hinc, hkwc, hw1c, hw2c,
      hsp1c, hsp2c, hsp3c, hidvc, hitc]

/-- Claim C9, witness: the invariant holds at the match of Pattern A on the
fixed Input String A, instantiating the word class with the ASCII part. -/
theorem C9_witness :
    (∀ c ∈ (groupVal (⟨"for (var char in \x27hello\x27.split(\x27\x27)".data,
        [(1, "var".data), (2, "char".data),
         (3, "\x27hello\x27.split(\x27\x27".data)]⟩ : MatchRes) 3).getD [],
        c ≠ ')') ∧
    (MatchRes.fullMatch ⟨"for (var char in \x27hello\x27.split(\x27\x27)".data,
      [(1, "var".data), (2, "char".data),
       (3, "\x27hello\x27.split(\x27\x27".data)]⟩).count ')' = 1 :=
  C9_iterable_invariant isWordPy (by decide) text
    ⟨"for (var char in \x27hello\x27.split(\x27\x27)".data,
      [(1, "var".data), (2, "char".data),
       (3, "\x27hello\x27.split(\x27\x27".data)]⟩ (by decide)

/-- Claim C10: Pattern B needs at least one character before `.split(`, so
on any string whose only occurrence of `.split(` starts at position zero the
anchored match fails. -/
theorem C10_empty_receiver_no_match (s : List Char)
    (h0 : ".split(".data <+: s)
    (h1 : ¬ (".split(".data <:+: s.drop 1)) :
    reMatch split_pattern s = none := by
  cases hEq : reMatch split_pattern s with
  | none => rfl
  | some m =>
    exfalso
    obtain ⟨a, b, rest, hs, hane, hap, hbp, hfull⟩ := split_pattern_decomp hEq
    obtain ⟨c, a', rfl⟩ : ∃ c a', a = c :: a' := by
      cases a with
      | nil => exact absurd rfl hane
      | cons c a' => exact ⟨c, a', rfl⟩
    subst hs
    exact h1 ⟨a', b ++ (')' :: rest), by simp⟩

/-- Claim C10, witness: `.split()` has its only `.split(` occurrence at
position zero and Pattern B rejects it. -/
theorem C10_witness :
    (".split(".data <+: ".split()".data) ∧
    ¬ (".split(".data <:+: (".split()".data).drop 1) ∧
    reMatch split_pattern ".split()".data = none :=
  ⟨by decide, by decide,
   C10_empty_receiver_no_match _ (by decide) (by decide)⟩

end DebugRegex
